import Mathlib

/-!
Shallow embedding of `src/ddnss.py` (conqp/ddnss), a command-line utility that
updates dynamic-DNS records at ddnss.de.

Modelling conventions:

* Python `str` values are modelled as `Str := List Char` (Unicode scalar
  values, exactly like CPython's `str`, which cannot hold surrogates coming
  from this program's inputs).
* Byte strings (`bytes`) are modelled as `List Nat` with every element below
  256.
* The functions `urllib.parse.quote_plus`, `unquote_plus`, `urlencode`,
  `urlunparse`/`urlunsplit`, the `re.search` call on the fixed pattern
  `REGEX`, and the relevant `configparser` behaviour are embedded from their
  CPython definitions, since `ddnss.py` delegates to them.
* The network is an oracle `net : Str → NetResponse` mapping the URL passed
  to `urlopen` to either a decoded response body or a raised
  `urllib.error.URLError`.
* `\d` of the success pattern is modelled as an ASCII decimal digit
  (`Char.isDigit`).
-/

abbrev Str := List Char

/-! ## UTF-8 (Python `str.encode('utf-8')` / `bytes.decode('utf-8')`) -/

/-- UTF-8 encoding of a single Unicode scalar value `n` (the byte sequence
CPython produces for `chr(n).encode('utf-8')`). -/
def utf8EncodeChar (n : Nat) : List Nat :=
  if n < 0x80 then [n]
  else if n < 0x800 then [0xC0 + n / 64, 0x80 + n % 64]
  else if n < 0x10000 then [0xE0 + n / 4096, 0x80 + n / 64 % 64, 0x80 + n % 64]
  else [0xF0 + n / 262144, 0x80 + n / 4096 % 64, 0x80 + n / 64 % 64, 0x80 + n % 64]

/-- UTF-8 encoding of a string (Python `s.encode('utf-8')`). -/
def utf8Encode : Str → List Nat
  | [] => []
  | c :: cs => utf8EncodeChar c.toNat ++ utf8Encode cs

/-- The Unicode replacement character U+FFFD substituted by
`bytes.decode('utf-8', errors='replace')` for malformed input. -/
def uRepl : Char := Char.ofNat 0xFFFD

/-- One step of UTF-8 decoding: given the lead byte `b0` and the remaining
bytes, produce the decoded character (U+FFFD at a malformed lead or
continuation byte, as `bytes.decode('utf-8', errors='replace')` does) and the
bytes still to decode. The exact number of replacement characters emitted for
a malformed run is immaterial here, since every claim only exercises the
decoder on well-formed output of `utf8Encode`. -/
def utf8DecodeStep (b0 : Nat) (bs : List Nat) : Char × List Nat :=
  if b0 < 0x80 then (Char.ofNat b0, bs)
  else if b0 < 0xC0 then (uRepl, bs)
  else if b0 < 0xE0 then
    match bs with
    | b1 :: bs1 =>
      if 0x80 ≤ b1 ∧ b1 < 0xC0 then (Char.ofNat ((b0 - 0xC0) * 64 + (b1 - 0x80)), bs1)
      else (uRepl, b1 :: bs1)
    | [] => (uRepl, [])
  else if b0 < 0xF0 then
    match bs with
    | b1 :: b2 :: bs2 =>
      if (0x80 ≤ b1 ∧ b1 < 0xC0) ∧ (0x80 ≤ b2 ∧ b2 < 0xC0) then
        (Char.ofNat ((b0 - 0xE0) * 4096 + (b1 - 0x80) * 64 + (b2 - 0x80)), bs2)
      else (uRepl, bs)
    | _ => (uRepl, bs)
  else
    match bs with
    | b1 :: b2 :: b3 :: bs3 =>
      if (0x80 ≤ b1 ∧ b1 < 0xC0) ∧ (0x80 ≤ b2 ∧ b2 < 0xC0) ∧ (0x80 ≤ b3 ∧ b3 < 0xC0) then
        (Char.ofNat ((b0 - 0xF0) * 262144 + (b1 - 0x80) * 4096 + (b2 - 0x80) * 64 + (b3 - 0x80)),
          bs3)
      else (uRepl, bs)
    | _ => (uRepl, bs)

/-- UTF-8 decoding of a byte sequence
(Python `bytes.decode('utf-8', errors='replace')`). -/
def utf8Decode (l : List Nat) : Str :=
  match l with
  | [] => []
  | b0 :: bs => (utf8DecodeStep b0 bs).1 :: utf8Decode (utf8DecodeStep b0 bs).2
termination_by l.length
decreasing_by
  simp only [List.length_cons]
  refine Nat.lt_succ_of_le ?_
  rw [utf8DecodeStep.eq_def]
  repeat' split
  all_goals simp_all [List.length_cons]
  all_goals omega

/-! ## Percent-encoding (`urllib.parse.quote_plus` / `unquote_plus`) -/

/-- Python's `urllib.parse._ALWAYS_SAFE` byte set: ASCII letters, digits and
`_ . - ~` are never percent-escaped. -/
def isAlwaysSafe (b : Nat) : Bool :=
  decide (0x41 ≤ b ∧ b ≤ 0x5A) || decide (0x61 ≤ b ∧ b ≤ 0x7A) ||
  decide (0x30 ≤ b ∧ b ≤ 0x39) || decide (b = 0x2D) || decide (b = 0x2E) ||
  decide (b = 0x5F) || decide (b = 0x7E)

/-- Uppercase hexadecimal digit, matching the `%XX` escapes of
`urllib.parse.quote`. -/
def hexUpper (n : Nat) : Char :=
  if n < 10 then Char.ofNat (0x30 + n) else Char.ofNat (0x37 + n)

/-- Value of a hexadecimal digit character (`unquote` accepts either case). -/
def hexVal (c : Char) : Option Nat :=
  if '0' ≤ c ∧ c ≤ '9' then some (c.toNat - 0x30)
  else if 'A' ≤ c ∧ c ≤ 'F' then some (c.toNat - 0x37)
  else if 'a' ≤ c ∧ c ≤ 'f' then some (c.toNat - 0x57)
  else none

/-- Percent-encode one byte (`urllib.parse.quote`): a byte in the always-safe
set or in `safe` is kept literally, any other byte becomes `%XX`. -/
def quoteByte (safe : List Nat) (b : Nat) : Str :=
  if isAlwaysSafe b || safe.contains b then [Char.ofNat b]
  else ['%', hexUpper (b / 16), hexUpper (b % 16)]

/-- Percent-encode a byte sequence (`urllib.parse.quote` after UTF-8
encoding). -/
def quoteBytes (safe : List Nat) : List Nat → Str
  | [] => []
  | b :: bs => quoteByte safe b ++ quoteBytes safe bs

/-- `urllib.parse.quote(s, safe)`: UTF-8-encode the string, then
percent-encode every unsafe byte. -/
def pyQuote (safe : List Nat) (s : Str) : Str :=
  quoteBytes safe (utf8Encode s)

/-- `urllib.parse.quote_plus(s, safe='')` as called by `urlencode`: if the
string contains a space, quote with space marked safe and then replace every
space by `+`; otherwise plain `quote`. -/
def quote_plus (s : Str) : Str :=
  if s.contains ' ' then (pyQuote [0x20] s).map (fun c => if c = ' ' then '+' else c)
  else pyQuote [] s

/-- One step of the percent-decoding performed by `urllib.parse.unquote`, at
the byte level: `%XX` with two hexadecimal digits yields the byte `XX`; any
other character (including a `%` not followed by two hexadecimal digits,
which CPython leaves literal) contributes its own UTF-8 bytes. Returns the
produced bytes and the characters still to process. -/
def percentDecodeStep (c : Char) (cs : Str) : List Nat × Str :=
  if c = '%' then
    match cs with
    | c1 :: c2 :: cs2 =>
      match hexVal c1, hexVal c2 with
      | some h1, some h2 => ([h1 * 16 + h2], cs2)
      | _, _ => (utf8EncodeChar c.toNat, c1 :: c2 :: cs2)
    | _ => (utf8EncodeChar c.toNat, cs)
  else (utf8EncodeChar c.toNat, cs)

/-- Percent-decoding of `urllib.parse.unquote`, producing the raw bytes. -/
def percentDecode (l : Str) : List Nat :=
  match l with
  | [] => []
  | c :: cs => (percentDecodeStep c cs).1 ++ percentDecode (percentDecodeStep c cs).2
termination_by l.length
decreasing_by
  simp only [List.length_cons]
  refine Nat.lt_succ_of_le ?_
  rw [percentDecodeStep.eq_def]
  repeat' split
  all_goals simp_all [List.length_cons]
  all_goals omega

/-- `urllib.parse.unquote`: percent-decode to bytes, then UTF-8-decode. -/
def unquote (s : Str) : Str := utf8Decode (percentDecode s)

/-- `urllib.parse.unquote_plus`: replace `+` by a space, then `unquote`. -/
def unquote_plus (s : Str) : Str :=
  unquote (s.map (fun c => if c = '+' then ' ' else c))

/-! ## URL construction (`urllib.parse.urlencode` / `urlunparse`) -/

/-- One `key=value` pair of a query string: both sides go through
`quote_plus` (`urllib.parse.urlencode` with its default `quote_via`). -/
def urlencodePair (p : Str × Str) : Str :=
  quote_plus p.1 ++ '=' :: quote_plus p.2

/-- `urllib.parse.urlencode` on an association list (a Python dict preserves
insertion order): the encoded pairs joined by `&`. -/
def urlencode : List (Str × Str) → Str
  | [] => []
  | [p] => urlencodePair p
  | p :: ps => urlencodePair p ++ '&' :: urlencode ps

/-- `urllib.parse.urlunsplit (scheme, netloc, url, query, fragment)`; `none`
models Python `None` (falsy, like the empty string). -/
def urlunsplit (scheme netloc url : Str) (query frag : Option Str) : Str :=
  let url1 :=
    if netloc ≠ [] ∨ (url ≠ [] ∧ url.take 2 = "//".data) then
      "//".data ++ netloc ++ (if url ≠ [] ∧ url.take 1 ≠ "/".data then '/' :: url else url)
    else url
  let url2 := if scheme ≠ [] then scheme ++ ':' :: url1 else url1
  let url3 :=
    match query with
    | some q => if q ≠ [] then url2 ++ '?' :: q else url2
    | none => url2
  match frag with
  | some f => if f ≠ [] then url3 ++ '#' :: f else url3
  | none => url3

/-- `urllib.parse.urlunparse` on a 6-component tuple whose first three
components are grouped as in the source constants `URL`/`URLv4`; the
parameter component `par` (Python's `params`, position 4) and the fragment
are `None` in `get_url`. -/
def urlunparse (comp : Str × Str × Str) (par query frag : Option Str) : Str :=
  match comp with
  | (scheme, netloc, path) =>
    let url :=
      match par with
      | some p => if p ≠ [] then path ++ ';' :: p else path
      | none => path
    urlunsplit scheme netloc url query frag

/-- Source constant `URL = ('https', 'ddnss.de', 'upd.php')`. -/
def URL : Str × Str × Str := ("https".data, "ddnss.de".data, "upd.php".data)

/-- Source constant `URLv4 = ('https', 'ip4.ddnss.de', 'upd.php')`. -/
def URLv4 : Str × Str × Str := ("https".data, "ip4.ddnss.de".data, "upd.php".data)

/-- `get_url(params, ipv4)` from the source:
`urlunparse([*(URLv4 if ipv4 else URL), None, params, None])`. -/
def get_url (params : Str) (ipv4 : Bool) : Str :=
  urlunparse (if ipv4 then URLv4 else URL) none (some params) none

/-- The network-location (endpoint host) component of an absolute `https`
URL: the characters between `https://` and the next `/`. -/
def urlNetloc (u : Str) : Option Str :=
  if "https://".data.isPrefixOf u then some ((u.drop 8).takeWhile (fun c => c != '/'))
  else none

/-! ## The success pattern (`re.search(REGEX, text)`) -/

/-- Source constant `REGEX = '(Updated \d+ hostname\.)'` (here with the
backslashes of the Python string literal resolved). -/
def REGEX : Str := "(Updated \\d+ hostname\\.)".data

/-- The fixed literal prefix `Updated ` of the success pattern. -/
def patHead : Str := "Updated ".data

/-- The fixed literal suffix ` hostname.` of the success pattern. -/
def patTail : Str := " hostname.".data

/-- Greedily split off the leading run of decimal digits (the `\d+` part of
the pattern; `\d` modelled as an ASCII decimal digit). -/
def takeDigits : Str → Str × Str
  | [] => ([], [])
  | c :: cs =>
    if c.isDigit then ((takeDigits cs).1.cons c, (takeDigits cs).2)
    else ([], c :: cs)

/-- Try to match `Updated \d+ hostname\.` at the start of `s`, returning the
matched substring. Since no decimal digit can begin ` hostname.`, the greedy
`\d+` never needs to backtrack, so this equals the regex engine's behaviour
at one position. -/
def matchAt (s : Str) : Option Str :=
  if patHead.isPrefixOf s then
    if (takeDigits (s.drop patHead.length)).1 ≠ [] ∧
        patTail.isPrefixOf (takeDigits (s.drop patHead.length)).2 then
      some (patHead ++ (takeDigits (s.drop patHead.length)).1 ++ patTail)
    else none
  else none

/-- `re.search(REGEX, s)`: try the pattern at each position from the left and
return the first (leftmost) match. The pattern cannot match the empty
remainder, so stopping at the empty list is equivalent to also trying the
final position. -/
def searchFirst : Str → Option Str
  | [] => none
  | c :: cs =>
    match matchAt (c :: cs) with
    | some m => some m
    | none => searchFirst cs

/-- A string of the exact shape `Updated <N> hostname.` where `<N>` is one or
more decimal digits. -/
def SuccessShape (m : Str) : Prop :=
  ∃ ds : Str, ds ≠ [] ∧ (∀ c ∈ ds, c.isDigit) ∧ m = patHead ++ ds ++ patTail

/-! ## The program model: configuration, update client, `main` -/

/-- One section of the INI config file, as `ddnss.py` reads it: an optional
`key` entry and an optional boolean `ipv4` entry (already parsed, as
`config.getboolean` would parse it). -/
structure HostSection where
  key : Option Str
  ipv4 : Option Bool
deriving DecidableEq

/-- The state of the configuration file on disk. `ConfigParser.read` treats a
missing file as empty but propagates parse errors (`configparser.ParsingError`
and its relatives) for an existing malformed file. -/
inductive ConfigFile where
  | absent
  | unparsable
  | parsed (sections : List (Str × HostSection))
deriving DecidableEq

/-- `ConfigParser.read(path)`: a missing file is silently ignored, leaving
the parser with an empty mapping; a malformed file raises. -/
def configRead : ConfigFile → Except Str (List (Str × HostSection))
  | ConfigFile.absent => Except.ok []
  | ConfigFile.unparsable => Except.error "ParsingError".data
  | ConfigFile.parsed sections => Except.ok sections

/-- Look up the section named `sect` (first match, like `configparser`,
which forbids duplicate section names). -/
def lookupSection (cfg : List (Str × HostSection)) (sect : Str) : Option HostSection :=
  match cfg with
  | [] => none
  | (nm, s) :: rest => if nm = sect then some s else lookupSection rest sect

/-- `config.getboolean(section, 'ipv4', fallback=fb)`: the parsed config
value when the section defines `ipv4`, the fallback otherwise (section or
option missing). -/
def getboolean (cfg : List (Str × HostSection)) (sect : Str) (fb : Bool) : Bool :=
  match lookupSection cfg sect with
  | some s =>
    match s.ipv4 with
    | some b => b
    | none => fb
  | none => fb

/-- The `ipv4` value the config file defines for `sect`, if any. -/
def sectionIpv4 (cfg : List (Str × HostSection)) (sect : Str) : Option Bool :=
  match lookupSection cfg sect with
  | some s => s.ipv4
  | none => none

/-- The exceptions `config.get(section, option)` (no fallback) can raise. -/
inductive CfgError where
  | noSectionError
  | noOptionError
deriving DecidableEq

/-- Whether a `configparser` lookup exception is an instance of `KeyError`.
`NoSectionError` and `NoOptionError` both derive from `configparser.Error`,
which extends `Exception` directly — neither is a `KeyError`, so the
source's `except KeyError` handler never catches them. -/
def isKeyError : CfgError → Bool
  | _ => false

/-- The Python class name of the exception, for the crash outcome. -/
def cfgErrorName : CfgError → Str
  | CfgError.noSectionError => "NoSectionError".data
  | CfgError.noOptionError => "NoOptionError".data

/-- `config.get(args.host, 'key')` with no fallback: raises `NoSectionError`
for a missing section and `NoOptionError` for a missing option. -/
def configGetKey (cfg : List (Str × HostSection)) (sect : Str) : Except CfgError Str :=
  match lookupSection cfg sect with
  | none => Except.error CfgError.noSectionError
  | some s =>
    match s.key with
    | none => Except.error CfgError.noOptionError
    | some k => Except.ok k

/-- The parsed CLI arguments (`get_args`): positional `host`, optional
`--key`, and the `store_true` flag `--ipv4` (true exactly when `-4`/`--ipv4`
was given on the command line). The config-file path is modelled by the
`ConfigFile` value passed to `mainModel`, and `--verbose` only affects the
log level. -/
structure Args where
  host : Str
  key : Option Str
  ipv4 : Bool
deriving DecidableEq

/-- What `urlopen(url)` followed by `response.read().decode()` yields: a
response body, or a raised `urllib.error.URLError` (DNS failure, TLS
failure, connection refused/reset, ...). -/
inductive NetResponse where
  | ok (body : Str)
  | urlError (reason : Str)
deriving DecidableEq

/-- The exceptions `update_url` can raise: a propagated
`urllib.error.URLError`, or the module's own `UpdateError` carrying the full
response text (`raise UpdateError(text)`). -/
inductive UpdateExc where
  | urlError (reason : Str)
  | updateError (payload : Str)
deriving DecidableEq

/-- The regex step of `update_url`: return the matched group if
`search(REGEX, text)` matches, otherwise `raise UpdateError(text)`. -/
def classifyBody (text : Str) : Except UpdateExc Str :=
  match searchFirst text with
  | some m => Except.ok m
  | none => Except.error (UpdateExc.updateError text)

/-- `update_url(url)`: open the URL (one `urlopen` call), read the body and
apply the success pattern. -/
def update_url (net : Str → NetResponse) (url : Str) : Except UpdateExc Str :=
  match net url with
  | NetResponse.ok body => classifyBody body
  | NetResponse.urlError reason => Except.error (UpdateExc.urlError reason)

/-- `update(host, key, ipv4=ipv4)` from the source, instrumented with the
list of URLs passed to `urlopen`: `update_url(get_url(urlencode({'host':
host, 'key': key}), ipv4))` opens exactly the one URL built by `get_url`. -/
def updateT (net : Str → NetResponse) (host key : Str) (ipv4 : Bool) :
    Except UpdateExc Str × List Str :=
  (update_url net (get_url (urlencode [("host".data, host), ("key".data, key)]) ipv4),
    [get_url (urlencode [("host".data, host), ("key".data, key)]) ipv4])

/-- `update(host, key, ipv4=ipv4)`: just the result. -/
def update (net : Str → NetResponse) (host key : Str) (ipv4 : Bool) : Except UpdateExc Str :=
  (updateT net host key ipv4).1

/-- The observable outcome of running `main`: a return code with the success
message logged (if any) and the HTTP requests performed, or a crash with an
uncaught exception (the interpreter then terminates with a traceback, exit
status 1, not with `main`'s return value). -/
inductive Outcome where
  | exited (code : Nat) (message : Option Str) (requests : List Str)
  | crashed (exc : Str) (requests : List Str)
deriving DecidableEq

/-- `key = args.key`, and if that is `None`, `config.get(args.host, 'key')`
inside `try/except KeyError`. -/
def resolveKey (args : Args) (cfg : List (Str × HostSection)) : Except CfgError Str :=
  match args.key with
  | some k => Except.ok k
  | none => configGetKey cfg args.host

/-- The `try/except` around `update` in `main`: `URLError` maps to return
code 3, `UpdateError` to 4, success logs the message and returns 0. -/
def handleUpdate : Except UpdateExc Str → Nat × Option Str
  | Except.ok m => (0, some m)
  | Except.error (UpdateExc.urlError _) => (3, none)
  | Except.error (UpdateExc.updateError _) => (4, none)

/-- The part of `main()` after `config.read`: resolve `ipv4` via
`config.getboolean(args.host, 'ipv4', fallback=args.ipv4)`, resolve the key
(CLI first, then config, with the `except KeyError: return 2` handler that
only fires for `KeyError`s), then run `update` and map its exceptions to
return codes. -/
def mainWithConfig (args : Args) (cfg : List (Str × HostSection))
    (net : Str → NetResponse) : Outcome :=
  match resolveKey args cfg with
  | Except.error e =>
    if isKeyError e then Outcome.exited 2 none []
    else Outcome.crashed (cfgErrorName e) []
  | Except.ok key =>
    Outcome.exited
      (handleUpdate (updateT net args.host key (getboolean cfg args.host args.ipv4)).1).1
      (handleUpdate (updateT net args.host key (getboolean cfg args.host args.ipv4)).1).2
      (updateT net args.host key (getboolean cfg args.host args.ipv4)).2

/-- `main()` of `ddnss.py`: read the config file (a parse error propagates
out of `main` as a crash), then resolve the request and run the update. -/
def mainModel (args : Args) (file : ConfigFile) (net : Str → NetResponse) : Outcome :=
  match configRead file with
  | Except.error e => Outcome.crashed e []
  | Except.ok config => mainWithConfig args config net

/-- The configuration used by the counterexample to claim C1: the host's
section defines the boolean flag `ipv4 = false` (and a key). -/
def cfgC1 : List (Str × HostSection) :=
  [("example.com".data, ⟨some "secret".data, some false⟩)]


/-! ## Lemmas -/

/-! ## Round-trip lemmas for the encoding layer -/

theorem char_toNat_lt (c : Char) : c.toNat < 0x110000 := by
  rcases c.valid with h | ⟨_, h⟩
  · exact Nat.lt_trans h (by norm_num)
  · exact h

theorem toNat_ofNat_of_lt {n : Nat} (h : n < 0xd800) : (Char.ofNat n).toNat = n := by
  have hv : n.isValidChar := Or.inl h
  rw [Char.ofNat, dif_pos hv]
  rfl

theorem utf8DecodeStep_ascii {b0 : Nat} (bs : List Nat) (h : b0 < 0x80) :
    utf8DecodeStep b0 bs = (Char.ofNat b0, bs) := by
  rw [utf8DecodeStep.eq_def, if_pos h]

theorem utf8DecodeStep_two {b0 b1 : Nat} (bs : List Nat)
    (h0 : 0xC0 ≤ b0) (h0' : b0 < 0xE0) (h1 : 0x80 ≤ b1) (h1' : b1 < 0xC0) :
    utf8DecodeStep b0 (b1 :: bs) = (Char.ofNat ((b0 - 0xC0) * 64 + (b1 - 0x80)), bs) := by
  simp only [utf8DecodeStep.eq_def]
  split_ifs <;> first | omega | rfl

theorem utf8DecodeStep_three {b0 b1 b2 : Nat} (bs : List Nat)
    (h0 : 0xE0 ≤ b0) (h0' : b0 < 0xF0) (h1 : 0x80 ≤ b1) (h1' : b1 < 0xC0)
    (h2 : 0x80 ≤ b2) (h2' : b2 < 0xC0) :
    utf8DecodeStep b0 (b1 :: b2 :: bs) =
      (Char.ofNat ((b0 - 0xE0) * 4096 + (b1 - 0x80) * 64 + (b2 - 0x80)), bs) := by
  simp only [utf8DecodeStep.eq_def]
  split_ifs <;> first | omega | rfl

theorem utf8DecodeStep_four {b0 b1 b2 b3 : Nat} (bs : List Nat)
    (h0 : 0xF0 ≤ b0) (h1 : 0x80 ≤ b1) (h1' : b1 < 0xC0) (h2 : 0x80 ≤ b2) (h2' : b2 < 0xC0)
    (h3 : 0x80 ≤ b3) (h3' : b3 < 0xC0) :
    utf8DecodeStep b0 (b1 :: b2 :: b3 :: bs) =
      (Char.ofNat ((b0 - 0xF0) * 262144 + (b1 - 0x80) * 4096 + (b2 - 0x80) * 64 + (b3 - 0x80)),
        bs) := by
  simp only [utf8DecodeStep.eq_def]
  split_ifs <;> first | omega | rfl

theorem utf8Decode_encodeChar (c : Char) (bs : List Nat) :
    utf8Decode (utf8EncodeChar c.toNat ++ bs) = c :: utf8Decode bs := by
  have hlt : c.toNat < 0x110000 := char_toNat_lt c
  rw [utf8EncodeChar]
  by_cases h1 : c.toNat < 0x80
  · rw [if_pos h1]
    simp only [List.cons_append, List.nil_append]
    rw [utf8Decode, utf8DecodeStep_ascii _ h1]
    simp only [Char.ofNat_toNat]
  · rw [if_neg h1]
    by_cases h2 : c.toNat < 0x800
    · rw [if_pos h2]
      simp only [List.cons_append, List.nil_append]
      rw [utf8Decode, utf8DecodeStep_two _ (by omega) (by omega) (by omega) (by omega)]
      have e : (0xC0 + c.toNat / 64 - 0xC0) * 64 + (0x80 + c.toNat % 64 - 0x80) = c.toNat := by
        omega
      rw [e]
      simp only [Char.ofNat_toNat]
    · rw [if_neg h2]
      by_cases h3 : c.toNat < 0x10000
      · rw [if_pos h3]
        simp only [List.cons_append, List.nil_append]
        rw [utf8Decode, utf8DecodeStep_three _ (by omega) (by omega) (by omega) (by omega)
          (by omega) (by omega)]
        have e : (0xE0 + c.toNat / 4096 - 0xE0) * 4096 + (0x80 + c.toNat / 64 % 64 - 0x80) * 64 +
            (0x80 + c.toNat % 64 - 0x80) = c.toNat := by omega
        rw [e]
        simp only [Char.ofNat_toNat]
      · rw [if_neg h3]
        simp only [List.cons_append, List.nil_append]
        rw [utf8Decode, utf8DecodeStep_four _ (by omega) (by omega) (by omega) (by omega)
          (by omega) (by omega) (by omega)]
        have e : (0xF0 + c.toNat / 262144 - 0xF0) * 262144 +
            (0x80 + c.toNat / 4096 % 64 - 0x80) * 4096 +
            (0x80 + c.toNat / 64 % 64 - 0x80) * 64 + (0x80 + c.toNat % 64 - 0x80) = c.toNat := by
          omega
        rw [e]
        simp only [Char.ofNat_toNat]

theorem utf8Decode_utf8Encode (s : Str) : utf8Decode (utf8Encode s) = s := by
  induction s with
  | nil => rw [utf8Encode, utf8Decode]
  | cons c cs ih => rw [utf8Encode, utf8Decode_encodeChar, ih]

theorem utf8EncodeChar_lt_256 {n : Nat} (h : n < 0x110000) :
    ∀ b ∈ utf8EncodeChar n, b < 256 := by
  intro b hb
  rw [utf8EncodeChar] at hb
  split_ifs at hb with h1 h2 h3 <;>
    simp only [List.mem_cons, List.not_mem_nil, or_false] at hb
  · omega
  · rcases hb with rfl | rfl <;> omega
  · rcases hb with rfl | rfl | rfl <;> omega
  · rcases hb with rfl | rfl | rfl | rfl <;> omega

theorem utf8Encode_lt_256 (s : Str) : ∀ b ∈ utf8Encode s, b < 256 := by
  induction s with
  | nil => intro b hb; simp [utf8Encode] at hb
  | cons c cs ih =>
    intro b hb
    rw [utf8Encode] at hb
    rcases List.mem_append.mp hb with h | h
    · exact utf8EncodeChar_lt_256 (char_toNat_lt c) b h
    · exact ih b h

theorem hexVal_hexUpper : ∀ n < 16, hexVal (hexUpper n) = some n := by decide

theorem hexUpper_ne_plus : ∀ n < 16, hexUpper n ≠ '+' := by decide

theorem isAlwaysSafe_bounds {b : Nat} (h : isAlwaysSafe b = true) :
    b < 0x80 ∧ b ≠ 0x25 ∧ b ≠ 0x2B ∧ b ≠ 0x20 := by
  simp only [isAlwaysSafe, Bool.or_eq_true, decide_eq_true_eq] at h
  rcases h with h | h | h | h | h | h | h <;> omega

theorem percentDecode_cons_of_ne (c : Char) (cs : Str) (hne : c ≠ '%') :
    percentDecode (c :: cs) = utf8EncodeChar c.toNat ++ percentDecode cs := by
  rw [percentDecode, percentDecodeStep.eq_def, if_neg hne]

theorem percentDecode_escape (b : Nat) (hb : b < 256) (cs : Str) :
    percentDecode ('%' :: hexUpper (b / 16) :: hexUpper (b % 16) :: cs) =
      b :: percentDecode cs := by
  have hstep : percentDecodeStep '%' (hexUpper (b / 16) :: hexUpper (b % 16) :: cs) =
      ([b], cs) := by
    simp only [percentDecodeStep, if_true]
    rw [hexVal_hexUpper (b / 16) (by omega), hexVal_hexUpper (b % 16) (by omega)]
    show ([b / 16 * 16 + b % 16], cs) = ([b], cs)
    have e : b / 16 * 16 + b % 16 = b := by omega
    rw [e]
  rw [percentDecode, hstep]
  rfl

theorem percentDecode_quoteByte (safe : List Nat)
    (hsafe : ∀ a ∈ safe, a < 0x80 ∧ a ≠ 0x25) (b : Nat) (hb : b < 256) (cs : Str) :
    percentDecode (quoteByte safe b ++ cs) = b :: percentDecode cs := by
  rw [quoteByte]
  by_cases hs : (isAlwaysSafe b || safe.contains b) = true
  · rw [if_pos hs]
    have hb' : b < 0x80 ∧ b ≠ 0x25 := by
      rcases Bool.or_eq_true .. |>.mp hs with h | h
      · have := isAlwaysSafe_bounds h
        exact ⟨this.1, this.2.1⟩
      · have hm : b ∈ safe := by simpa using h
        exact hsafe b hm
    simp only [List.cons_append, List.nil_append]
    rw [percentDecode_cons_of_ne]
    · rw [toNat_ofNat_of_lt (by omega), utf8EncodeChar, if_pos hb'.1]
      rfl
    · intro hEq
      have h37 := congrArg Char.toNat hEq
      rw [toNat_ofNat_of_lt (by omega)] at h37
      exact hb'.2 h37
  · rw [if_neg hs]
    simp only [List.cons_append, List.nil_append]
    exact percentDecode_escape b hb cs

theorem percentDecode_quoteBytes (safe : List Nat)
    (hsafe : ∀ a ∈ safe, a < 0x80 ∧ a ≠ 0x25) (bs : List Nat) :
    (∀ b ∈ bs, b < 256) → percentDecode (quoteBytes safe bs) = bs := by
  induction bs with
  | nil =>
    intro
    rw [quoteBytes, percentDecode]
  | cons b bs ih =>
    intro hlt
    rw [quoteBytes, percentDecode_quoteByte safe hsafe b (hlt b (List.mem_cons_self b bs)),
      ih (fun x hx => hlt x (List.mem_cons_of_mem b hx))]

theorem quoteBytes_ne_plus (safe : List Nat)
    (hsafe : ∀ a ∈ safe, a < 0x80 ∧ a ≠ 0x2B) (bs : List Nat) :
    (∀ b ∈ bs, b < 256) → ∀ ch ∈ quoteBytes safe bs, ch ≠ '+' := by
  induction bs with
  | nil =>
    intro _ ch hch
    rw [quoteBytes] at hch
    exact absurd hch (List.not_mem_nil ch)
  | cons b bs ih =>
    intro hlt ch hch
    rw [quoteBytes] at hch
    rcases List.mem_append.mp hch with h | h
    · rw [quoteByte] at h
      split_ifs at h with hs
      · simp only [List.mem_singleton] at h
        subst h
        have hb : b < 0x80 ∧ b ≠ 0x2B := by
          rcases Bool.or_eq_true .. |>.mp hs with h' | h'
          · have := isAlwaysSafe_bounds h'
            exact ⟨this.1, this.2.2.1⟩
          · have hm : b ∈ safe := by simpa using h'
            exact hsafe b hm
        intro hEq
        have h43 := congrArg Char.toNat hEq
        rw [toNat_ofNat_of_lt (by omega)] at h43
        exact hb.2 h43
      · simp only [List.mem_cons, List.not_mem_nil, or_false] at h
        have hb256 := hlt b (List.mem_cons_self b bs)
        rcases h with rfl | rfl | rfl
        · decide
        · exact hexUpper_ne_plus (b / 16) (by omega)
        · exact hexUpper_ne_plus (b % 16) (by omega)
    · exact ih (fun x hx => hlt x (List.mem_cons_of_mem b hx)) ch h

theorem map_unplus_of_ne_plus (l : Str) (h : ∀ ch ∈ l, ch ≠ '+') :
    l.map (fun c => if c = '+' then ' ' else c) = l := by
  have he : ∀ ch ∈ l, (fun c => if c = '+' then ' ' else c) ch = id ch := by
    intro ch hch
    simp only [id]
    rw [if_neg (h ch hch)]
  rw [List.map_congr_left he, List.map_id]

theorem unquote_plus_quote_plus (s : Str) : unquote_plus (quote_plus s) = s := by
  have hsafe20 : ∀ a ∈ ([0x20] : List Nat), a < 0x80 ∧ a ≠ 0x25 := by
    intro a ha
    simp only [List.mem_singleton] at ha
    subst ha
    omega
  have hsafe20' : ∀ a ∈ ([0x20] : List Nat), a < 0x80 ∧ a ≠ 0x2B := by
    intro a ha
    simp only [List.mem_singleton] at ha
    subst ha
    omega
  have hnil : ∀ a ∈ ([] : List Nat), a < 0x80 ∧ a ≠ 0x25 := by
    intro a ha
    exact absurd ha (List.not_mem_nil a)
  have hnil' : ∀ a ∈ ([] : List Nat), a < 0x80 ∧ a ≠ 0x2B := by
    intro a ha
    exact absurd ha (List.not_mem_nil a)
  rw [quote_plus]
  by_cases hsp : s.contains ' '
  · rw [if_pos hsp, unquote_plus, List.map_map]
    have hnp : ∀ ch ∈ pyQuote [0x20] s, ch ≠ '+' :=
      quoteBytes_ne_plus [0x20] hsafe20' (utf8Encode s) (utf8Encode_lt_256 s)
    have hmm : (pyQuote [0x20] s).map
        ((fun c => if c = '+' then ' ' else c) ∘ (fun c => if c = ' ' then '+' else c)) =
        pyQuote [0x20] s := by
      have he : ∀ ch ∈ pyQuote [0x20] s,
          ((fun c => if c = '+' then ' ' else c) ∘ (fun c => if c = ' ' then '+' else c)) ch =
            id ch := by
        intro ch hch
        simp only [Function.comp, id]
        by_cases hc : ch = ' '
        · subst hc
          rw [if_pos rfl, if_pos rfl]
        · rw [if_neg hc, if_neg (hnp ch hch)]
      rw [List.map_congr_left he, List.map_id]
    rw [hmm, unquote, pyQuote,
      percentDecode_quoteBytes [0x20] hsafe20 (utf8Encode s) (utf8Encode_lt_256 s),
      utf8Decode_utf8Encode]
  · rw [if_neg hsp, unquote_plus]
    have hnp : ∀ ch ∈ pyQuote [] s, ch ≠ '+' :=
      quoteBytes_ne_plus [] hnil' (utf8Encode s) (utf8Encode_lt_256 s)
    rw [map_unplus_of_ne_plus _ hnp, unquote, pyQuote,
      percentDecode_quoteBytes [] hnil (utf8Encode s) (utf8Encode_lt_256 s),
      utf8Decode_utf8Encode]

/-! ## Lemmas about the success-pattern matcher -/

theorem takeDigits_append (t : Str) : (takeDigits t).1 ++ (takeDigits t).2 = t := by
  induction t with
  | nil => rfl
  | cons c cs ih =>
    rw [takeDigits]
    by_cases h : c.isDigit = true
    · rw [if_pos h]
      show c :: ((takeDigits cs).1 ++ (takeDigits cs).2) = c :: cs
      rw [ih]
    · rw [if_neg h]
      rfl

theorem takeDigits_digits (t : Str) : ∀ c ∈ (takeDigits t).1, c.isDigit := by
  induction t with
  | nil => intro c hc; exact absurd hc (List.not_mem_nil c)
  | cons c cs ih =>
    intro x hx
    rw [takeDigits] at hx
    by_cases h : c.isDigit = true
    · rw [if_pos h] at hx
      rcases List.mem_cons.mp hx with rfl | hx'
      · exact h
      · exact ih x hx'
    · rw [if_neg h] at hx
      exact absurd hx (List.not_mem_nil x)

theorem takeDigits_of_digits (ds : Str) (hds : ∀ c ∈ ds, c.isDigit) (c0 : Char) (r : Str)
    (hc0 : c0.isDigit = false) : takeDigits (ds ++ c0 :: r) = (ds, c0 :: r) := by
  induction ds with
  | nil =>
    rw [List.nil_append, takeDigits, if_neg (by rw [hc0]; exact Bool.false_ne_true)]
  | cons d ds ih =>
    rw [List.cons_append, takeDigits,
      if_pos (hds d (List.mem_cons_self d ds)),
      ih (fun x hx => hds x (List.mem_cons_of_mem d hx))]

theorem matchAt_sound {s m : Str} (h : matchAt s = some m) :
    SuccessShape m ∧ ∃ r, s = m ++ r := by
  rw [matchAt] at h
  split_ifs at h with hp hg
  · obtain ⟨t, ht⟩ : ∃ t, patHead ++ t = s := List.isPrefixOf_iff_prefix.mp hp
    have hd : s.drop patHead.length = t := by rw [← ht, List.drop_left]
    rw [hd] at h hg
    obtain ⟨⟨d1, d2⟩, htd⟩ : ∃ p : Str × Str, takeDigits t = p := ⟨takeDigits t, rfl⟩
    rw [htd] at h hg
    obtain ⟨hne, hsuf⟩ := hg
    obtain ⟨r', hr'⟩ : ∃ r', patTail ++ r' = d2 := List.isPrefixOf_iff_prefix.mp hsuf
    simp only [Option.some.injEq] at h
    subst h
    have hta := takeDigits_append t
    rw [htd] at hta
    have hdig := takeDigits_digits t
    rw [htd] at hdig
    refine ⟨⟨d1, hne, fun x hx => hdig x hx, rfl⟩, r', ?_⟩
    rw [← ht, ← hta, ← hr']
    simp [List.append_assoc]

theorem matchAt_complete (ds suf : Str) (hne : ds ≠ []) (hds : ∀ c ∈ ds, c.isDigit) :
    matchAt (patHead ++ ds ++ (patTail ++ suf)) = some (patHead ++ ds ++ patTail) := by
  have hpre : patHead.isPrefixOf (patHead ++ ds ++ (patTail ++ suf)) := by
    rw [List.append_assoc, List.isPrefixOf_iff_prefix]
    exact List.prefix_append patHead (ds ++ (patTail ++ suf))
  have hd : (patHead ++ ds ++ (patTail ++ suf)).drop patHead.length = ds ++ (patTail ++ suf) := by
    rw [List.append_assoc, List.drop_left]
  have htail : patTail ++ suf = ' ' :: ("hostname.".data ++ suf) := rfl
  have htd : takeDigits (ds ++ (patTail ++ suf)) = (ds, patTail ++ suf) := by
    rw [htail]
    exact takeDigits_of_digits ds hds ' ' ("hostname.".data ++ suf) (by decide)
  rw [matchAt, if_pos hpre, hd, htd,
    if_pos ⟨hne, List.isPrefixOf_iff_prefix.mpr (List.prefix_append patTail suf)⟩]

theorem searchFirst_of_matchAt {s m : Str} (h : matchAt s = some m) :
    searchFirst s = some m := by
  cases s with
  | nil =>
    rw [matchAt, if_neg (by decide)] at h
    exact Option.noConfusion h
  | cons c cs => rw [searchFirst, h]

theorem searchFirst_sound {s m : Str} (h : searchFirst s = some m) :
    SuccessShape m ∧ ∃ pre suf, s = pre ++ m ++ suf := by
  induction s with
  | nil =>
    rw [searchFirst] at h
    exact Option.noConfusion h
  | cons c cs ih =>
    rw [searchFirst] at h
    cases hm : matchAt (c :: cs) with
    | some m0 =>
      rw [hm] at h
      simp only [Option.some.injEq] at h
      subst h
      obtain ⟨hshape, r, hr⟩ := matchAt_sound hm
      exact ⟨hshape, [], r, by simpa using hr⟩
    | none =>
      rw [hm] at h
      obtain ⟨hshape, pre, suf, hps⟩ := ih h
      refine ⟨hshape, c :: pre, suf, ?_⟩
      rw [hps]
      simp [List.cons_append]

theorem searchFirst_complete (pre ds suf : Str) (hne : ds ≠ []) (hds : ∀ c ∈ ds, c.isDigit) :
    ∃ m, searchFirst (pre ++ (patHead ++ ds ++ (patTail ++ suf))) = some m := by
  induction pre with
  | nil =>
    rw [List.nil_append]
    exact ⟨_, searchFirst_of_matchAt (matchAt_complete ds suf hne hds)⟩
  | cons c pre ih =>
    rw [List.cons_append, searchFirst]
    cases hm : matchAt (c :: (pre ++ (patHead ++ ds ++ (patTail ++ suf)))) with
    | some m0 => exact ⟨m0, rfl⟩
    | none =>
      obtain ⟨m, hm'⟩ := ih
      exact ⟨m, hm'⟩

theorem urlNetloc_get_url (host key : Str) (ipv4 : Bool) :
    urlNetloc (get_url (urlencode [("host".data, host), ("key".data, key)]) ipv4) =
      some (if ipv4 then "ip4.ddnss.de".data else "ddnss.de".data) := by
  cases ipv4 <;> rfl

/-! ## The claims -/

/-- C1, counterexample: with the config section for `example.com` defining
`ipv4 = false` and the CLI flag `--ipv4` explicitly set (i.e. `args.ipv4 =
true`), the resolved value is `false`, the config value — not `true`, the
CLI value, as the claim states: `config.getboolean(host, 'ipv4',
fallback=args.ipv4)` only uses the CLI flag as the fallback. -/
theorem claim_C1_counterexample :
    sectionIpv4 cfgC1 "example.com".data = some false ∧
    getboolean cfgC1 "example.com".data true = false ∧
    ¬ getboolean cfgC1 "example.com".data true = true := by decide

/-- C1, amended: whenever the host's config section defines a boolean `ipv4`
flag, the resolved ipv4 value equals the config value, regardless of the CLI
flag; the CLI flag is only used as the fallback when the config does not
define `ipv4`. -/
theorem claim_C1_amended (cfg : List (Str × HostSection)) (host : Str) (cli : Bool) :
    (∀ b, sectionIpv4 cfg host = some b → getboolean cfg host cli = b) ∧
    (sectionIpv4 cfg host = none → getboolean cfg host cli = cli) := by
  cases hs : lookupSection cfg host with
  | none =>
    constructor
    · intro b hb
      rw [sectionIpv4.eq_def, hs] at hb
      exact Option.noConfusion hb
    · intro _
      rw [getboolean.eq_def, hs]
  | some s =>
    cases hi : s.ipv4 with
    | none =>
      constructor
      · intro b hb
        rw [sectionIpv4.eq_def, hs] at hb
        have hb' : s.ipv4 = some b := hb
        rw [hi] at hb'
        exact Option.noConfusion hb'
      · intro _
        rw [getboolean.eq_def, hs]
        show (match s.ipv4 with | some b => b | none => cli) = cli
        rw [hi]
    | some b0 =>
      constructor
      · intro b hb
        rw [sectionIpv4.eq_def, hs] at hb
        have hb' : s.ipv4 = some b := hb
        rw [hi] at hb'
        injection hb' with hb0
        subst hb0
        rw [getboolean.eq_def, hs]
        show (match s.ipv4 with | some b => b | none => cli) = b0
        rw [hi]
      · intro hnone
        rw [sectionIpv4.eq_def, hs] at hnone
        have h0 : s.ipv4 = none := hnone
        rw [hi] at h0
        exact Option.noConfusion h0

theorem claim_C1_witness :
    sectionIpv4 cfgC1 "example.com".data = some false ∧
    getboolean cfgC1 "example.com".data true = false :=
  ⟨by decide, (claim_C1_amended cfgC1 "example.com".data true).1 false (by decide)⟩

/-- C2: evaluating `main` at the failing input — no `--key`, and a config
file with no section for the host (here: an absent file, so the parser holds
an empty mapping). `config.get(host, 'key')` raises `NoSectionError`, which
the `except KeyError` handler does not catch, so the program crashes with an
uncaught exception (interpreter exit status 1 with a traceback) instead of
returning 2; no HTTP request is performed (the request list is empty). -/
theorem claim_C2_eval :
    mainModel ⟨"example.com".data, none, false⟩ ConfigFile.absent
        (fun _ => NetResponse.ok "Updated 1 hostname.".data) =
      Outcome.crashed "NoSectionError".data [] := rfl

/-- C3: if the response body contains a substring of the exact shape
`Updated <N> hostname.` (one or more decimal digits), `update` succeeds and
returns a matched substring of the body of that exact shape as the success
message. -/
theorem claim_C3 (net : Str → NetResponse) (host key body pre ds suf : Str) (ipv4 : Bool)
    (hresp : net (get_url (urlencode [("host".data, host), ("key".data, key)]) ipv4) =
      NetResponse.ok body)
    (hne : ds ≠ []) (hds : ∀ c ∈ ds, c.isDigit)
    (hbody : body = pre ++ (patHead ++ ds ++ (patTail ++ suf))) :
    ∃ m, update net host key ipv4 = Except.ok m ∧ SuccessShape m ∧
      ∃ p q, body = p ++ m ++ q := by
  obtain ⟨m, hm⟩ := searchFirst_complete pre ds suf hne hds
  rw [← hbody] at hm
  obtain ⟨hshape, p, q, hpq⟩ := searchFirst_sound hm
  refine ⟨m, ?_, hshape, p, q, hpq⟩
  have hcl : update net host key ipv4 = classifyBody body := by
    rw [update, updateT]
    show update_url net (get_url (urlencode [("host".data, host), ("key".data, key)]) ipv4) =
      classifyBody body
    rw [update_url.eq_def, hresp]
  rw [hcl, classifyBody.eq_def, hm]

theorem claim_C3_witness :
    (∃ m, update (fun _ => NetResponse.ok "Updated 3 hostname.\n".data)
        "example.com".data "secret".data false = Except.ok m ∧ SuccessShape m ∧
        ∃ p q, "Updated 3 hostname.\n".data = p ++ m ++ q) ∧
    update (fun _ => NetResponse.ok "Updated 3 hostname.\n".data)
        "example.com".data "secret".data false = Except.ok "Updated 3 hostname.".data :=
  ⟨claim_C3 (fun _ => NetResponse.ok "Updated 3 hostname.\n".data) "example.com".data
      "secret".data "Updated 3 hostname.\n".data [] "3".data "\n".data false rfl
      (by decide) (by decide) rfl,
    rfl⟩

/-- C4: if the success pattern does not occur in the response body, `update`
raises `UpdateError` carrying the full raw body as its payload, and `main`'s
exception mapping turns that into return code 4 with no success message. -/
theorem claim_C4 (net : Str → NetResponse) (host key body : Str) (ipv4 : Bool)
    (hresp : net (get_url (urlencode [("host".data, host), ("key".data, key)]) ipv4) =
      NetResponse.ok body)
    (hno : searchFirst body = none) :
    update net host key ipv4 = Except.error (UpdateExc.updateError body) ∧
    handleUpdate (update net host key ipv4) = (4, none) := by
  have hu : update net host key ipv4 = Except.error (UpdateExc.updateError body) := by
    rw [update, updateT]
    show update_url net (get_url (urlencode [("host".data, host), ("key".data, key)]) ipv4) =
      Except.error (UpdateExc.updateError body)
    rw [update_url.eq_def, hresp]
    show classifyBody body = Except.error (UpdateExc.updateError body)
    rw [classifyBody.eq_def, hno]
  refine ⟨hu, ?_⟩
  rw [hu]
  rfl

theorem claim_C4_witness :
    update (fun _ => NetResponse.ok "Bad key.".data) "example.com".data "secret".data false =
        Except.error (UpdateExc.updateError "Bad key.".data) ∧
    handleUpdate (update (fun _ => NetResponse.ok "Bad key.".data) "example.com".data
        "secret".data false) = (4, none) :=
  claim_C4 (fun _ => NetResponse.ok "Bad key.".data) "example.com".data "secret".data
    "Bad key.".data false rfl rfl

/-- C5: `update` performs exactly one request, and the endpoint host of that
request's URL is `ip4.ddnss.de` when ipv4 is forced and the dual-stack
`ddnss.de` otherwise. -/
theorem claim_C5 (net : Str → NetResponse) (host key : Str) (ipv4 : Bool) :
    ∃ u, (updateT net host key ipv4).2 = [u] ∧
      urlNetloc u = some (if ipv4 then "ip4.ddnss.de".data else "ddnss.de".data) :=
  ⟨get_url (urlencode [("host".data, host), ("key".data, key)]) ipv4, rfl,
    urlNetloc_get_url host key ipv4⟩

/-- C6: the URL `update` requests is
`https://<endpoint-host>/upd.php?host=<host>&key=<key>` — scheme `https`,
path `upd.php`, and a query string with the (percent-encoded) host parameter
followed by the key parameter. -/
theorem claim_C6 (host key : Str) (ipv4 : Bool) :
    get_url (urlencode [("host".data, host), ("key".data, key)]) ipv4 =
      "https://".data ++ ((if ipv4 then "ip4.ddnss.de".data else "ddnss.de".data) ++
        ("/upd.php?".data ++ ("host=".data ++ (quote_plus host ++
        ("&key=".data ++ quote_plus key))))) := by
  cases ipv4 <;> rfl

/-- C7: both query-string fields are percent-encoded with `quote_plus`
(reserved characters such as `&`, `=` and the space are escaped), and
decoding an encoded value restores the original value for every string. -/
theorem claim_C7 :
    (∀ host key : Str, urlencode [("host".data, host), ("key".data, key)] =
      "host=".data ++ quote_plus host ++ ("&key=".data ++ quote_plus key)) ∧
    (quote_plus "&".data = "%26".data ∧ quote_plus "=".data = "%3D".data ∧
      quote_plus " ".data = "+".data) ∧
    ∀ x : Str, unquote_plus (quote_plus x) = x :=
  ⟨fun _ _ => rfl, ⟨rfl, rfl, rfl⟩, unquote_plus_quote_plus⟩

/-- C8: when the config was read and a key resolved, and the request fails
at the transport level (`urlopen` raises `URLError`), `main` returns code 3
— not 4 — and no success message is reported. -/
theorem claim_C8 (args : Args) (file : ConfigFile) (net : Str → NetResponse)
    (cfg : List (Str × HostSection)) (key reason : Str)
    (hcfg : configRead file = Except.ok cfg)
    (hkey : resolveKey args cfg = Except.ok key)
    (hnet : ∀ u, net u = NetResponse.urlError reason) :
    ∃ reqs, mainModel args file net = Outcome.exited 3 none reqs := by
  have h1 : mainModel args file net = mainWithConfig args cfg net := by
    rw [mainModel.eq_def, hcfg]
  have hu : (updateT net args.host key (getboolean cfg args.host args.ipv4)).1 =
      Except.error (UpdateExc.urlError reason) := by
    show update_url net
      (get_url (urlencode [("host".data, args.host), ("key".data, key)])
        (getboolean cfg args.host args.ipv4)) = Except.error (UpdateExc.urlError reason)
    rw [update_url.eq_def, hnet]
  refine ⟨(updateT net args.host key (getboolean cfg args.host args.ipv4)).2, ?_⟩
  rw [h1, mainWithConfig.eq_def, hkey]
  show Outcome.exited
      (handleUpdate (updateT net args.host key (getboolean cfg args.host args.ipv4)).1).1
      (handleUpdate (updateT net args.host key (getboolean cfg args.host args.ipv4)).1).2
      (updateT net args.host key (getboolean cfg args.host args.ipv4)).2 =
    Outcome.exited 3 none (updateT net args.host key (getboolean cfg args.host args.ipv4)).2
  rw [hu]
  rfl

theorem claim_C8_witness :
    (∀ u : Str, (fun _ : Str => NetResponse.urlError "gaierror".data) u =
      NetResponse.urlError "gaierror".data) ∧
    ∃ reqs, mainModel ⟨"example.com".data, some "secret".data, false⟩ ConfigFile.absent
        (fun _ => NetResponse.urlError "gaierror".data) = Outcome.exited 3 none reqs :=
  ⟨fun _ => rfl,
    claim_C8 ⟨"example.com".data, some "secret".data, false⟩ ConfigFile.absent
      (fun _ => NetResponse.urlError "gaierror".data) [] "secret".data "gaierror".data
      rfl rfl (fun _ => rfl)⟩

/-- C9, counterexample: an unparsable config file is not treated as an empty
mapping — `config.read` raises a `ParsingError` that `main` does not catch,
so even with `--key` supplied the program crashes before any request,
unlike the same invocation with an empty (absent-file) mapping. -/
theorem claim_C9_counterexample :
    configRead ConfigFile.unparsable = Except.error "ParsingError".data ∧
    mainModel ⟨"example.com".data, some "secret".data, false⟩ ConfigFile.unparsable
        (fun _ => NetResponse.ok "Updated 1 hostname.".data) =
      Outcome.crashed "ParsingError".data [] ∧
    mainModel ⟨"example.com".data, some "secret".data, false⟩ ConfigFile.unparsable
        (fun _ => NetResponse.ok "Updated 1 hostname.".data) ≠
      mainModel ⟨"example.com".data, some "secret".data, false⟩ (ConfigFile.parsed [])
        (fun _ => NetResponse.ok "Updated 1 hostname.".data) :=
  ⟨rfl, rfl, by decide⟩

/-- C9, amended: a missing config file (only) is treated as an empty
mapping, and with a `--key` supplied the invocation behaves exactly as with
an empty config and proceeds to perform the update request (exactly one
request is made, determined by the CLI values alone). -/
theorem claim_C9_amended (host key : Str) (ipv4 : Bool) (net : Str → NetResponse) :
    configRead ConfigFile.absent = Except.ok [] ∧
    mainModel ⟨host, some key, ipv4⟩ ConfigFile.absent net =
      mainModel ⟨host, some key, ipv4⟩ (ConfigFile.parsed []) net ∧
    ∃ code msg u, mainModel ⟨host, some key, ipv4⟩ ConfigFile.absent net =
      Outcome.exited code msg [u] :=
  ⟨rfl, rfl,
    (handleUpdate (updateT net host key ipv4).1).1,
    (handleUpdate (updateT net host key ipv4).1).2,
    get_url (urlencode [("host".data, host), ("key".data, key)]) ipv4, rfl⟩

/-- C10: every message `update` returns without raising has the exact
success shape `Updated <N> hostname.` — it begins with `Updated `, ends
with ` hostname.` and has one or more decimal digits in between — no matter
what else the response body contained. -/
theorem claim_C10 (net : Str → NetResponse) (host key m : Str) (ipv4 : Bool)
    (h : update net host key ipv4 = Except.ok m) : SuccessShape m := by
  rw [update, updateT] at h
  have h' : update_url net (get_url (urlencode [("host".data, host), ("key".data, key)]) ipv4) =
      Except.ok m := h
  rw [update_url.eq_def] at h'
  cases hn : net (get_url (urlencode [("host".data, host), ("key".data, key)]) ipv4) with
  | ok body =>
    rw [hn] at h'
    have h2 : classifyBody body = Except.ok m := h'
    rw [classifyBody.eq_def] at h2
    cases hs : searchFirst body with
    | some m0 =>
      rw [hs] at h2
      have hm : m0 = m := by simpa using h2
      subst hm
      exact (searchFirst_sound hs).1
    | none =>
      rw [hs] at h2
      simp at h2
  | urlError r =>
    rw [hn] at h'
    simp at h'

theorem claim_C10_witness :
    update (fun _ => NetResponse.ok "xx Updated 42 hostname. yy".data) "h".data "k".data
        false = Except.ok "Updated 42 hostname.".data ∧
    SuccessShape "Updated 42 hostname.".data :=
  ⟨rfl,
    claim_C10 (fun _ => NetResponse.ok "xx Updated 42 hostname. yy".data) "h".data "k".data
      "Updated 42 hostname.".data false rfl⟩
